import Mathlib

/-!
Verification of the Legato application-framework Supervisor core
(`framework/c/src/supervisor/app.c` and `framework/c/src/thread.c`).

The C code is shallowly embedded: every function below mirrors the control
flow of the source function of the same name.  External collaborators
(config store, cgroup service, identity service, executor, pthread) are
represented by explicit environment records whose fields carry the results
those collaborators would return; the supervisor state mutated by the code
(the application object, its process containers, the kill timer, the thread
list) is threaded explicitly.  C strings are `List Char`; the fixed
`supplementGids` array together with its `numSupplementGids` count is
abstracted as the list of the first `numSupplementGids` entries.
-/

set_option autoImplicit false

namespace Legato

/-- Subset of `le_result_t` used by the supervisor core. -/
inductive LeResult
  | ok
  | fault
  | notFound
  | overflow
  | deadlock
  | notPossible
  deriving DecidableEq

/-- `app_State_t`: states of the application state machine. -/
inductive AppState
  | stopped
  | running
  deriving DecidableEq

/-- Executor-reported process state (`proc_GetState`). -/
inductive ProcState
  | stopped
  | running
  deriving DecidableEq

/-- `KillType_t` from app.c. -/
inductive KillType
  | soft
  | hard
  deriving DecidableEq

/-- The two signals broadcast by the kill-escalation path. -/
inductive Signal
  | sigTerm
  | sigKill
  deriving DecidableEq

/-- Supervisor-level fault actions (`FaultAction_t`). -/
inductive FaultAction
  | none
  | ignore
  | restartProc
  | restartApp
  | stopApp
  | reboot
  deriving DecidableEq

/-- Watchdog actions (`wdog_action_WatchdogAction_t`). -/
inductive WdogAction
  | notFound
  | ignore
  | stop
  | restart
  | restartApp
  | stopApp
  | reboot
  | error
  | handled
  deriving DecidableEq

/-- `ProcContainer_t`: wraps an executor process handle with a stop-handler
slot and an external stop callback slot.  `stopHandler = true` models a
non-NULL internal stop handler (the only value ever stored is `proc_Start`);
`stopping` models the executor having been told `proc_Stopping`;
`procState` is the executor's report for this process. -/
structure ProcContainer where
  pid : Nat
  procState : ProcState
  stopHandler : Bool
  stopping : Bool
  externStopHandler : Bool
  deriving DecidableEq

/-- `App_t`: the application object.  `supplementGids` abstracts the
`supplementGids` array restricted to its first `numSupplementGids` entries,
so `numSupplementGids` is the list's length.  `killTimerExists` models
`killTimer != NULL` and `killTimerArmed` models the timer running. -/
structure App where
  name : List Char
  cfgPathRoot : List Char
  sandboxed : Bool
  uid : Nat
  gid : Nat
  supplementGids : List Nat
  state : AppState
  procs : List ProcContainer
  auxProcs : List ProcContainer
  killTimerExists : Bool
  killTimerArmed : Bool
  deriving DecidableEq

/-- `FindProcContainerInList`: linear scan for the first container whose
process has the given pid. -/
def FindProcContainerInList (list : List ProcContainer) (pid : Nat) :
    Option ProcContainer :=
  match list with
  | [] => Option.none
  | p :: rest =>
      if p.pid = pid then some p else FindProcContainerInList rest pid

/-- `FindProcContainer`: search the configured list, then the auxiliary
list. -/
def FindProcContainer (app : App) (pid : Nat) : Option ProcContainer :=
  match FindProcContainerInList app.procs pid with
  | some p => some p
  | Option.none => FindProcContainerInList app.auxProcs pid

/-- Replace the first container with the given pid using `f` (in-place
mutation of the container found by `FindProcContainerInList`). -/
def updateProcInList (pid : Nat) (f : ProcContainer → ProcContainer) :
    List ProcContainer → List ProcContainer
  | [] => []
  | p :: rest =>
      if p.pid = pid then f p :: rest else p :: updateProcInList pid f rest

/-- In-place mutation of the container found by `FindProcContainer`:
the configured list is tried first, then the auxiliary list. -/
def updateProc (app : App) (pid : Nat) (f : ProcContainer → ProcContainer) :
    App :=
  match FindProcContainerInList app.procs pid with
  | some _ => { app with procs := updateProcInList pid f app.procs }
  | Option.none => { app with auxProcs := updateProcInList pid f app.auxProcs }

/-- Results returned by the control-group service during one
`KillAppProcs` call.  `sendSigCount = Option.none` models `cgrp_SendSig`
returning `LE_FAULT`; `some n` models it reporting `n` processes
signalled. -/
structure CgroupEnv where
  freezeOk : Bool
  sendSigCount : Option Nat
  thawOk : Bool

/-- Observable outcome of `KillAppProcs`: the updated app (stop handlers
cleared on non-stopped containers), which signal was broadcast, whether
`cgrp_frz_Thaw` was reached, and the returned `le_result_t`. -/
structure KillOutcome where
  app : App
  signalSent : Signal
  thawCalled : Bool
  result : LeResult
  deriving DecidableEq

/-- `KillAppProcs` (app.c:859-930): freeze the cgroup, clear the stop
handler and mark "stopping" on every container whose executor is not
stopped, broadcast SIGTERM (soft) or SIGKILL (hard) to the freeze
subsystem, thaw, and return `LE_NOT_FOUND` when the broadcast failed or
signalled zero processes, `LE_OK` otherwise.  The busy-wait on
`cgrp_frz_GetState` terminates with no observable effect and is not
modelled beyond `freezeOk`. -/
def KillAppProcs (app : App) (killType : KillType) (env : CgroupEnv) :
    KillOutcome :=
  let procs2 := app.procs.map (fun p =>
    if p.procState ≠ ProcState.stopped then
      { p with stopHandler := false, stopping := true }
    else p)
  let app2 := { app with procs := procs2 }
  let killSig :=
    if killType = KillType.soft then Signal.sigTerm else Signal.sigKill
  match env.sendSigCount with
  | Option.none =>
      { app := app2, signalSent := killSig, thawCalled := false,
        result := LeResult.notFound }
  | some n =>
      { app := app2, signalSent := killSig, thawCalled := true,
        result := if n = 0 then LeResult.notFound else LeResult.ok }

/-- `app_Stop` (app.c:2472-2511): no-op on a stopped app; otherwise soft
kill all processes, and either transition to STOPPED (nothing left to
signal) or lazily create and start the one-shot kill timer.  Note that the
STOPPED branch does not touch an already armed timer. -/
def app_Stop (app : App) (env : CgroupEnv) : App :=
  if app.state = AppState.stopped then app
  else
    let kill := KillAppProcs app KillType.soft env
    if kill.result = LeResult.notFound then
      { kill.app with state := AppState.stopped }
    else
      { kill.app with killTimerExists := true, killTimerArmed := true }

/-- Collaborator results consumed by one `app_SigChildHandler` call:
the fault action reported by `proc_SigChildHandler`, the result of
invoking the attached internal stop handler (which is always
`proc_Start`), the result of the `proc_Start` call in the
`FAULT_ACTION_RESTART_PROC` branch, and the answer of
`cgrp_IsEmpty(CGRP_SUBSYS_FREEZE, app)` after the per-process handling. -/
structure SigChildEnv where
  procFaultAction : FaultAction
  stopHandlerOk : Bool
  procStartOk : Bool
  freezeGroupEmpty : Bool

/-- Observable outcome of `app_SigChildHandler`: the updated app, the
fault action stored through `faultActionPtr`, whether `le_timer_Stop` was
called, and whether the container's external stop handler was invoked. -/
structure SigChildOutcome where
  app : App
  faultAction : FaultAction
  timerStopped : Bool
  externCalled : Bool
  deriving DecidableEq

/-- `app_SigChildHandler` (app.c:2917-3023): `faultActionPtr` is
initialized to IGNORE; when a container matches the pid, its external
stop handler is invoked and the executor's fault action is mapped to a
supervisor fault action; afterwards — container found or not — if every
process in the freeze cgroup has died, the kill timer (when it exists) is
stopped and the app transitions to STOPPED. -/
def app_SigChildHandler (app : App) (pid : Nat) (env : SigChildEnv) :
    SigChildOutcome :=
  let found := FindProcContainer app pid
  let fa :=
    match found with
    | Option.none => FaultAction.ignore
    | some p =>
        match env.procFaultAction with
        | FaultAction.none =>
            if p.stopHandler ∧ env.stopHandlerOk = false then
              FaultAction.stopApp
            else FaultAction.ignore
        | FaultAction.ignore => FaultAction.ignore
        | FaultAction.restartProc =>
            if env.procStartOk = false then FaultAction.stopApp
            else FaultAction.ignore
        | FaultAction.restartApp => FaultAction.restartApp
        | FaultAction.stopApp => FaultAction.stopApp
        | FaultAction.reboot => FaultAction.reboot
  let externCalled :=
    match found with
    | some p => p.externStopHandler
    | Option.none => false
  if env.freezeGroupEmpty then
    { app := { app with
                 state := AppState.stopped,
                 killTimerArmed :=
                   if app.killTimerExists then false else app.killTimerArmed },
      faultAction := fa,
      timerStopped := app.killTimerExists,
      externCalled := externCalled }
  else
    { app := app, faultAction := fa, timerStopped := false,
      externCalled := externCalled }

/-- Collaborator results consumed by one `app_Start` call: whether
`CreateTmpFs` and `CreateDefaultTmpLinks` succeed (consulted for sandboxed
apps only), the result of `proc_Start` for the configured process at each
index, and the cgroup results for the `app_Stop` call issued on failure. -/
structure StartEnv where
  tmpFsOk : Bool
  tmpLinksOk : Bool
  procStartOk : Nat → Bool
  stopEnv : CgroupEnv

/-- Observable outcome of `app_Start`: the updated app, the indices of the
configured processes passed to `proc_Start` in call order, whether
`app_Stop` was issued, and the returned `le_result_t`. -/
structure StartOutcome where
  app : App
  startAttempts : List Nat
  stopCalled : Bool
  result : LeResult
  deriving DecidableEq

/-- The process-starting loop of `app_Start` (app.c:2439-2459): walk the
configured containers in declaration order, starting each; on the first
failure call `app_Stop` and return `LE_FAULT`. -/
def startProcsFrom (env : StartEnv) (app : App) :
    Nat → List ProcContainer → StartOutcome
  | _, [] =>
      { app := app, startAttempts := [], stopCalled := false,
        result := LeResult.ok }
  | i, _ :: rest =>
      if env.procStartOk i then
        let out := startProcsFrom env app (i + 1) rest
        { out with startAttempts := i :: out.startAttempts }
      else
        { app := app_Stop app env.stopEnv, startAttempts := [i],
          stopCalled := true, result := LeResult.fault }

/-- `app_Start` (app.c:2404-2462): reject a RUNNING app with `LE_FAULT`;
otherwise set the state to RUNNING, build the sandboxed `/tmp` (failures
return `LE_FAULT` before any process starts), then run the
process-starting loop. -/
def app_Start (app : App) (env : StartEnv) : StartOutcome :=
  if app.state = AppState.running then
    { app := app, startAttempts := [], stopCalled := false,
      result := LeResult.fault }
  else
    let app2 := { app with state := AppState.running }
    if app2.sandboxed = true ∧ env.tmpFsOk = false then
      { app := app2, startAttempts := [], stopCalled := false,
        result := LeResult.fault }
    else if app2.sandboxed = true ∧ env.tmpLinksOk = false then
      { app := app2, startAttempts := [], stopCalled := false,
        result := LeResult.fault }
    else startProcsFrom env app2 0 app2.procs

/-- Modelled from the spec: `wdog_action_EnumFromString` (the
`wdog_action` module is not among the sources).  The watchdog action
strings are the spec's action names; an empty string (the config default)
means no action was configured, and an unknown string is an error. -/
def wdog_action_EnumFromString (s : List Char) : WdogAction :=
  if s = [] then WdogAction.notFound
  else if s = ('i' :: 'g' :: 'n' :: 'o' :: 'r' :: 'e' :: []) then
    WdogAction.ignore
  else if s = ('r' :: 'e' :: 's' :: 't' :: 'a' :: 'r' :: 't' :: []) then
    WdogAction.restart
  else if s = ('s' :: 't' :: 'o' :: 'p' :: []) then WdogAction.stop
  else if s = ('r' :: 'e' :: 's' :: 't' :: 'a' :: 'r' :: 't' :: 'A' :: 'p' :: 'p' :: []) then
    WdogAction.restartApp
  else if s = ('s' :: 't' :: 'o' :: 'p' :: 'A' :: 'p' :: 'p' :: []) then
    WdogAction.stopApp
  else if s = ('r' :: 'e' :: 'b' :: 'o' :: 'o' :: 't' :: []) then
    WdogAction.reboot
  else WdogAction.error

/-- Collaborator results consumed by one `app_WatchdogTimeoutHandler`
call: the process-level action reported by `proc_GetWatchdogAction`, and
the app-level `watchdogAction` config read (`Option.none` models
`le_cfg_GetString` failing with overflow; `some s` the string read, the
default being the empty string). -/
structure WdogEnv where
  procAction : WdogAction
  appActionRead : Option (List Char)

/-- The action the handler switches on after the app-level fallback
(app.c:2800-2832): the process-level action, unless it is NOT_FOUND or
ERROR, in which case the app-level config node is consulted. -/
def resolvedWdogAction (env : WdogEnv) : WdogAction :=
  if env.procAction = WdogAction.notFound ∨ env.procAction = WdogAction.error
  then
    match env.appActionRead with
    | some s => wdog_action_EnumFromString s
    | Option.none => WdogAction.error
  else env.procAction

/-- Observable outcome of `app_WatchdogTimeoutHandler`: the returned
`le_result_t`, the action stored through `watchdogActionPtr`
(`Option.none` when the pid is unknown and the pointer is untouched), the
updated app, and whether `StopProc` was called on the container's
process. -/
structure WdogOutcome where
  result : LeResult
  actionOut : Option WdogAction
  app : App
  stoppedProc : Bool
  deriving DecidableEq

/-- `app_WatchdogTimeoutHandler` (app.c:2779-2908): `LE_NOT_FOUND` for an
unknown pid; otherwise resolve the watchdog action with the app-level
fallback and switch on it.  NOT_FOUND installs `proc_Start` as the
container's stop handler and stops the process; RESTART does the same;
STOP stops the process; IGNORE, ERROR and HANDLED only report HANDLED;
RESTART_APP, STOP_APP and REBOOT are surfaced unchanged.  `StopProc`
(app.c:1038-1048) marks the executor stopping before the hard kill, which
is reflected on the container. -/
def app_WatchdogTimeoutHandler (app : App) (pid : Nat) (env : WdogEnv) :
    WdogOutcome :=
  match FindProcContainer app pid with
  | Option.none =>
      { result := LeResult.notFound, actionOut := Option.none, app := app,
        stoppedProc := false }
  | some _ =>
      let wa := resolvedWdogAction env
      match wa with
      | WdogAction.notFound =>
          { result := LeResult.ok, actionOut := some WdogAction.handled,
            app := updateProc app pid
              (fun p => { p with stopHandler := true, stopping := true }),
            stoppedProc := true }
      | WdogAction.ignore =>
          { result := LeResult.ok, actionOut := some WdogAction.handled,
            app := app, stoppedProc := false }
      | WdogAction.stop =>
          { result := LeResult.ok, actionOut := some WdogAction.handled,
            app := updateProc app pid (fun p => { p with stopping := true }),
            stoppedProc := true }
      | WdogAction.restart =>
          { result := LeResult.ok, actionOut := some WdogAction.handled,
            app := updateProc app pid
              (fun p => { p with stopHandler := true, stopping := true }),
            stoppedProc := true }
      | WdogAction.restartApp =>
          { result := LeResult.ok, actionOut := some WdogAction.restartApp,
            app := app, stoppedProc := false }
      | WdogAction.stopApp =>
          { result := LeResult.ok, actionOut := some WdogAction.stopApp,
            app := app, stoppedProc := false }
      | WdogAction.reboot =>
          { result := LeResult.ok, actionOut := some WdogAction.reboot,
            app := app, stoppedProc := false }
      | WdogAction.error =>
          { result := LeResult.ok, actionOut := some WdogAction.handled,
            app := app, stoppedProc := false }
      | WdogAction.handled =>
          { result := LeResult.ok, actionOut := some WdogAction.handled,
            app := app, stoppedProc := false }

/-- Modelled from the spec: `smack_GetAppLabel` derives the app's MAC
label from its name (the `smack` module is not among the sources); the
derivation only needs to be a function of the name. -/
def smack_GetAppLabel (name : List Char) : List Char :=
  'a' :: 'p' :: 'p' :: '.' :: name

/-- A MAC rule `(subject, permission mask, object)` as passed to
`smack_SetRule`. -/
structure SmackRule where
  subject : List Char
  perm : List Char
  object : List Char
  deriving DecidableEq

/-- Config data consumed by one `SetSmackRulesForBindings` call.
`children` holds, for each child of the `bindings` node, the result of
reading its `app` string (`Option.none` models `le_cfg_GetString` failing
with overflow).  `cancelledReads` holds the `app`-string reads the
do/while loop performs on the CANCELLED iterator when the node has no
children — that behavior of the config store is unspecified, so the
sequence of reads (one per loop iteration, until `GoToNextSibling` on the
cancelled iterator fails) is supplied by the environment. -/
structure BindingsEnv where
  children : List (Option (List Char))
  cancelledReads : List (Option (List Char))

/-- Outcome of `SetSmackRulesForBindings`: the rules passed to
`smack_SetRule` in order, and whether the do/while loop ran on an iterator
that had already been cancelled. -/
structure BindingsOutcome where
  rules : List SmackRule
  usedCancelledIter : Bool
  deriving DecidableEq

/-- The loop body of `SetSmackRulesForBindings` for one child: when the
`app` string was read successfully and is non-empty, set the two rules
`app→server = rw` and `server→app = rw`. -/
def bindingRulesFor (appLabel : List Char) (read : Option (List Char)) :
    List SmackRule :=
  match read with
  | some s =>
      if s ≠ [] then
        [ { subject := appLabel, perm := ('r' :: 'w' :: []),
            object := smack_GetAppLabel s },
          { subject := smack_GetAppLabel s, perm := ('r' :: 'w' :: []),
            object := appLabel } ]
      else []
  | Option.none => []

/-- `SetSmackRulesForBindings` (app.c:713-748).  When `GoToFirstChild`
fails (no children) the transaction is cancelled — but the function does
NOT return: control falls through into the do/while loop, whose body then
reads the `app` string from the cancelled iterator at least once
(`usedCancelledIter`), setting whatever rules those unspecified reads
yield.  With children present the loop walks them normally and the
transaction is cancelled after the loop. -/
def SetSmackRulesForBindings (appLabel : List Char) (env : BindingsEnv) :
    BindingsOutcome :=
  match env.children with
  | [] =>
      { rules :=
          (env.cancelledReads.map (fun r => bindingRulesFor appLabel r)).flatten,
        usedCancelledIter := true }
  | cs =>
      { rules := (cs.map (fun c => bindingRulesFor appLabel c)).flatten,
        usedCancelledIter := false }

/-- Config and identity-service data consumed by
`CreateSupplementaryGroups`: the names of the children of the app's
`groups` config node, and the gid `user_CreateGroup` assigns to each name
(`Option.none` models `LE_FAULT`). -/
structure GroupsEnv where
  groups : List (List Char)
  createGroup : List Char → Option Nat

/-- The read loop of `CreateSupplementaryGroups` (app.c:418-452), entered
only when the `groups` node has a first child.  At index `i` it reads the
child's name (`le_cfg_GetNodeName` fails when the name does not fit a
buffer of `maxUserName` bytes including the terminator), creates the
group, stores the gid, and advances; when `GoToNextSibling` finds another
sibling at `i ≥ maxGroups - 1`, there are too many groups and the loop
fails.  `Option.none` models `LE_FAULT`.  The `for`-condition exit of the
C loop is reachable only when `maxGroups = 0`; theorems assume
`0 < maxGroups` (the build-time limit is positive). -/
def readSupplementGids (maxGroups maxUserName : Nat) (env : GroupsEnv) :
    Nat → List (List Char) → Option (List Nat)
  | _, [] => Option.none
  | i, name :: rest =>
      if maxUserName ≤ name.length then Option.none
      else
        match env.createGroup name with
        | Option.none => Option.none
        | some gid =>
            match rest with
            | [] => some [gid]
            | _ :: _ =>
                if maxGroups - 1 ≤ i then Option.none
                else
                  match readSupplementGids maxGroups maxUserName env (i + 1) rest with
                  | Option.none => Option.none
                  | some gids => some (gid :: gids)

/-- `CreateSupplementaryGroups` (app.c:398-459): `LE_OK` with the app
untouched when the `groups` node has no children; otherwise run the read
loop and store the gids read together with their count.  `Option.none`
models `LE_FAULT`. -/
def CreateSupplementaryGroups (maxGroups maxUserName : Nat)
    (env : GroupsEnv) (app : App) : Option App :=
  match env.groups with
  | [] => some app
  | g :: gs =>
      match readSupplementGids maxGroups maxUserName env 0 (g :: gs) with
      | Option.none => Option.none
      | some gids => some { app with supplementGids := gids }

/-- Identity-service results consumed by `CreateUserAndGroups`: whether
`user_AppNameToUserName` fits the username buffer, the ids reported by
`user_GetIDs` (`Option.none` models failure), and the groups data. -/
structure UserEnv where
  userNameFits : Bool
  getIDs : Option (Nat × Nat)
  groupsEnv : GroupsEnv

/-- `CreateUserAndGroups` (app.c:473-509): sandboxed apps derive a
username, look up uid and primary gid, and read the supplementary groups;
unsandboxed apps get uid 0 and gid 0 and the groups config is never
consulted.  `Option.none` models `LE_FAULT`. -/
def CreateUserAndGroups (maxGroups maxUserName : Nat) (env : UserEnv)
    (app : App) : Option App :=
  if app.sandboxed then
    if env.userNameFits = false then Option.none
    else
      match env.getIDs with
      | Option.none => Option.none
      | some (u, g) =>
          CreateSupplementaryGroups maxGroups maxUserName env.groupsEnv
            { app with uid := u, gid := g }
  else some { app with uid := 0, gid := 0 }

/-- The segment of a path after its last separator (models
`le_path_GetBasenamePtr(path, "/")`; le_path.c is not among the
sources — modelled from the spec's "the source's basename"). -/
def pathBasename (p : List Char) : List Char :=
  p.foldl (fun acc c => if c = '/' then [] else acc ++ [c]) []

/-- Collaborator results consumed by the `app_Create` skeleton: whether
the config path fits, the `sandboxed` config value, the identity data,
whether the install and working directory paths fit, per-procs-child
`proc_Create` success, and the results of the resource-limit, MAC-rule
and runtime-area steps. -/
structure CreateEnv where
  cfgPathFits : Bool
  sandboxed : Bool
  userEnv : UserEnv
  installPathFits : Bool
  workingPathFits : Bool
  procCreateOk : List Bool
  resLimOk : Bool
  smackOk : Bool
  areaOk : Bool

/-- The procs walk of `app_Create` (app.c:2271-2308): create one process
container per child of the `procs` node, failing the creation on the
first `proc_Create` failure.  Container fields start as
`CreateProcContainer` builds them (no handlers; the executor has no pid
yet, modelled as 0). -/
def createProcContainers : List Bool → Option (List ProcContainer)
  | [] => some []
  | ok :: rest =>
      if ok then
        match createProcContainers rest with
        | Option.none => Option.none
        | some l =>
            some ({ pid := 0, procState := ProcState.stopped,
                    stopHandler := false, stopping := false,
                    externStopHandler := false } :: l)
      else Option.none

/-- `app_Create` (app.c:2195-2335).  The freshly allocated object is
modelled from the spec as a blank app record (empty process lists, empty
supplementary-group list, state STOPPED, no kill timer; `le_mem` is not
among the sources).  Any failing step — config path too long, identity,
paths, a `proc_Create`, resource limits, MAC rules, runtime area — aborts
the creation (`goto failed`), modelled as `Option.none`. -/
def app_Create (maxGroups maxUserName : Nat) (env : CreateEnv)
    (cfgPathRoot : List Char) : Option App :=
  if env.cfgPathFits = false then Option.none
  else
    let app0 : App :=
      { name := pathBasename cfgPathRoot, cfgPathRoot := cfgPathRoot,
        sandboxed := env.sandboxed, uid := 0, gid := 0,
        supplementGids := [], state := AppState.stopped, procs := [],
        auxProcs := [], killTimerExists := false, killTimerArmed := false }
    match CreateUserAndGroups maxGroups maxUserName env.userEnv app0 with
    | Option.none => Option.none
    | some app1 =>
        if env.installPathFits = false then Option.none
        else if env.workingPathFits = false then Option.none
        else
          match createProcContainers env.procCreateOk with
          | Option.none => Option.none
          | some containers =>
              if env.resLimOk = false then Option.none
              else if env.smackOk = false then Option.none
              else if env.areaOk = false then Option.none
              else some { app1 with procs := containers }

/-- Drop every trailing separator of a path segment. -/
def dropTrailingSeps (p : List Char) : List Char :=
  (p.reverse.dropWhile (fun c => c = '/')).reverse

/-- Drop every leading separator of a path segment. -/
def dropLeadingSeps (p : List Char) : List Char :=
  p.dropWhile (fun c => c = '/')

/-- Modelled from the spec: `le_path_Concat("/", ..)` joins two path
segments so that exactly one separator stands between them (le_path.c is
not among the sources; the spec says destination paths are taken
"relative to workingDir", i.e. joined onto it). -/
def pathConcat2 (a b : List Char) : List Char :=
  if a = [] then b
  else if b = [] then a
  else dropTrailingSeps a ++ '/' :: dropLeadingSeps b

/-- `GetAbsDestPath` (app.c:1121-1141): when the destination ends in `/`
(the C code inspects `destPtr[strlen(destPtr)-1]`, so the destination is
assumed non-empty), concatenate the runtime dir, the destination and the
source's basename; otherwise concatenate the runtime dir and the
destination. -/
def GetAbsDestPath (dest src appRunDir : List Char) : List Char :=
  if dest.getLast? = some '/' then
    pathConcat2 (pathConcat2 appRunDir dest) (pathBasename src)
  else pathConcat2 appRunDir dest

/-- The claim's reading of the destination-path rule, stated
independently: a destination ending in `/` gets the source basename
appended, any other destination is taken verbatim relative to the working
directory. -/
def specAbsDestPath (dest src workingDir : List Char) : List Char :=
  if dest.reverse.head? = some '/' then
    pathConcat2 (pathConcat2 workingDir dest) (pathBasename src)
  else pathConcat2 workingDir dest

/-- Outcome of `app_GetSupplementaryGroups`: the gids copied into the
caller's buffer, the value stored back through `numGroupsPtr`, and the
result code. -/
structure SuppGroupsOutcome where
  groupsOut : List Nat
  numGroupsOut : Nat
  result : LeResult
  deriving DecidableEq

/-- `app_GetSupplementaryGroups` (app.c:2728-2760): copy all stored gids
when the caller's capacity suffices, else copy only the first
`capacity`-many; in both cases store the full count back and return
`LE_OK` or `LE_OVERFLOW` accordingly. -/
def app_GetSupplementaryGroups (app : App) (numGroupsIn : Nat) :
    SuppGroupsOutcome :=
  if app.supplementGids.length ≤ numGroupsIn then
    { groupsOut := app.supplementGids,
      numGroupsOut := app.supplementGids.length,
      result := LeResult.ok }
  else
    { groupsOut := app.supplementGids.take numGroupsIn,
      numGroupsOut := app.supplementGids.length,
      result := LeResult.overflow }

/-- A thread object (`thread_Obj_t`) as far as `le_thread_Join` observes
it: the pthread handle (`tid`), the safe reference stored in the object,
and the joinable flag. -/
structure ThreadObj where
  tid : Nat
  safeRef : Nat
  isJoinable : Bool
  deriving DecidableEq

/-- The thread runtime's shared state: the safe-reference map
(`ThreadRefMap`, reference → object) and the process-wide thread object
list (`ThreadObjList`, by pthread handle). -/
structure ThreadState where
  refMap : List (Nat × ThreadObj)
  objList : List Nat
  deriving DecidableEq

/-- `le_ref_Lookup` on the association-list model of the safe-reference
map. -/
def le_ref_Lookup (m : List (Nat × ThreadObj)) (ref : Nat) :
    Option ThreadObj :=
  match m with
  | [] => Option.none
  | (r, o) :: rest => if r = ref then some o else le_ref_Lookup rest ref

/-- The outcomes `pthread_join` can report to `le_thread_Join`
(thread.c:892-918). -/
inductive PthreadJoinResult
  | success
  | edeadlk
  | esrch
  | otherErr
  deriving DecidableEq

/-- Outcome of `le_thread_Join`: the result code, the updated shared
state, and the tid of the object passed to `DeleteThread`
(`Option.none` when nothing was freed). -/
structure JoinOutcome where
  result : LeResult
  st : ThreadState
  freedTid : Option Nat
  deriving DecidableEq

/-- `le_thread_Join` (thread.c:855-921): unknown reference fails
`LE_NOT_FOUND`; a non-joinable target fails `LE_NOT_POSSIBLE`; otherwise
`pthread_join` decides — success deletes the safe reference, removes the
object from the process-wide list and frees it, `EDEADLK` maps to
`LE_DEADLOCK`, `ESRCH` to `LE_NOT_FOUND`, anything else to
`LE_NOT_POSSIBLE`.  `pthreadJoin` is the host OS's join outcome for
(caller handle, target handle); POSIX reports `EDEADLK` when a thread
joins itself. -/
def le_thread_Join (st : ThreadState) (callerTid : Nat) (ref : Nat)
    (pthreadJoin : Nat → Nat → PthreadJoinResult) : JoinOutcome :=
  match le_ref_Lookup st.refMap ref with
  | Option.none => { result := LeResult.notFound, st := st, freedTid := Option.none }
  | some o =>
      if o.isJoinable = false then
        { result := LeResult.notPossible, st := st, freedTid := Option.none }
      else
        match pthreadJoin callerTid o.tid with
        | PthreadJoinResult.success =>
            { result := LeResult.ok,
              st := { refMap := st.refMap.filter (fun rt => rt.fst ≠ o.safeRef),
                      objList := st.objList.filter (fun t => t ≠ o.tid) },
              freedTid := some o.tid }
        | PthreadJoinResult.edeadlk =>
            { result := LeResult.deadlock, st := st, freedTid := Option.none }
        | PthreadJoinResult.esrch =>
            { result := LeResult.notFound, st := st, freedTid := Option.none }
        | PthreadJoinResult.otherErr =>
            { result := LeResult.notPossible, st := st, freedTid := Option.none }

/-! ## Theorems -/

/-- A blank app record used to build concrete instances. -/
def blankApp : App :=
  { name := ['a'], cfgPathRoot := ['a'], sandboxed := false, uid := 0,
    gid := 0, supplementGids := [], state := AppState.stopped, procs := [],
    auxProcs := [], killTimerExists := false, killTimerArmed := false }

/-- Claim C1 (amended): for an app in state RUNNING whose kill timer is
not already armed, if the soft-kill broadcast reports `n` processes
signalled, `stop()` either finds the freeze group already empty (`n = 0`)
and sets the state to STOPPED, or leaves the state RUNNING and arms the
one-shot kill timer; hence the kill timer is armed after `stop()` returns
iff the freeze group was not yet empty. -/
theorem app_Stop_killTimer_armed_iff (app : App) (env : CgroupEnv) (n : Nat)
    (hRun : app.state = AppState.running)
    (hSend : env.sendSigCount = some n)
    (hArm : app.killTimerArmed = false) :
    (n = 0 → (app_Stop app env).state = AppState.stopped) ∧
    (n ≠ 0 → (app_Stop app env).state = AppState.running ∧
             (app_Stop app env).killTimerArmed = true) ∧
    ((app_Stop app env).killTimerArmed = true ↔ n ≠ 0) := by
  by_cases h : n = 0 <;>
    simp [app_Stop, KillAppProcs, hRun, hSend, hArm, h]

/-- Concrete RUNNING app whose kill timer was armed by an earlier
`stop()`. -/
def cApp1 : App :=
  { blankApp with state := AppState.running, killTimerExists := true,
                  killTimerArmed := true }

/-- Cgroup results for a `stop()` that finds the freeze group already
empty. -/
def cEnv1 : CgroupEnv :=
  { freezeOk := true, sendSigCount := some 0, thawOk := true }

/-- Claim C1 counterexample: a second `stop()` on a RUNNING app whose
kill timer is already armed finds the freeze group empty (zero processes
signalled), transitions to STOPPED — and leaves the kill timer armed,
refuting "after stop() returns, the killTimer is armed if and only if the
soft-kill was issued and the freeze group was not yet empty". -/
theorem app_Stop_already_armed_cex :
    cApp1.state = AppState.running ∧
    cEnv1.sendSigCount = some 0 ∧
    (app_Stop cApp1 cEnv1).state = AppState.stopped ∧
    (app_Stop cApp1 cEnv1).killTimerArmed = true := by
  refine ⟨rfl, rfl, rfl, rfl⟩

/-- Concrete RUNNING app with an unarmed kill timer. -/
def wApp1 : App := { blankApp with state := AppState.running }

/-- Cgroup results reporting two processes signalled. -/
def wEnv1 : CgroupEnv :=
  { freezeOk := true, sendSigCount := some 2, thawOk := true }

/-- Witness for C1 at a concrete input. -/
theorem app_Stop_killTimer_armed_iff_witness :
    ((2 : Nat) ≠ 0 → (app_Stop wApp1 wEnv1).state = AppState.running ∧
      (app_Stop wApp1 wEnv1).killTimerArmed = true) ∧
    ((app_Stop wApp1 wEnv1).killTimerArmed = true ↔ (2 : Nat) ≠ 0) := by
  have h := app_Stop_killTimer_armed_iff wApp1 wEnv1 2 rfl rfl rfl
  exact ⟨h.2.1, h.2.2⟩

/-- Claim C2: for every app and SIGCHLD input, when no process container
matches the pid the handler reports fault action IGNORE; and in every
case, if the freeze cgroup is empty after the per-process handling, the
kill timer (when it exists) is stopped and the app's state is set to
STOPPED. -/
theorem app_SigChildHandler_ignore_and_stop (app : App) (pid : Nat)
    (env : SigChildEnv) :
    (FindProcContainer app pid = Option.none →
      (app_SigChildHandler app pid env).faultAction = FaultAction.ignore) ∧
    (env.freezeGroupEmpty = true →
      (app_SigChildHandler app pid env).timerStopped = app.killTimerExists ∧
      (app_SigChildHandler app pid env).app.state = AppState.stopped) := by
  constructor
  · intro h
    by_cases he : env.freezeGroupEmpty <;>
      simp [app_SigChildHandler, h, he]
  · intro he
    simp [app_SigChildHandler, he]

/-- Concrete app for the C2 witness: one configured process, kill timer
existing and armed. -/
def wApp2 : App :=
  { blankApp with state := AppState.running, killTimerExists := true,
                  killTimerArmed := true,
                  procs := [{ pid := 7, procState := ProcState.running,
                              stopHandler := false, stopping := false,
                              externStopHandler := false }] }

/-- SIGCHLD environment for the C2 witness: clean exit, freeze group now
empty. -/
def wEnv2 : SigChildEnv :=
  { procFaultAction := FaultAction.none, stopHandlerOk := true,
    procStartOk := true, freezeGroupEmpty := true }

/-- Witness for C2 at a concrete input (unknown pid 9). -/
theorem app_SigChildHandler_ignore_and_stop_witness :
    (app_SigChildHandler wApp2 9 wEnv2).faultAction = FaultAction.ignore ∧
    (app_SigChildHandler wApp2 9 wEnv2).timerStopped = wApp2.killTimerExists ∧
    (app_SigChildHandler wApp2 9 wEnv2).app.state = AppState.stopped := by
  have h := app_SigChildHandler_ignore_and_stop wApp2 9 wEnv2
  exact ⟨h.1 (by decide), (h.2 rfl).1, (h.2 rfl).2⟩

/-- Claim C4: kill escalation broadcasts SIGTERM for a SOFT kill and
SIGKILL for a HARD kill, then thaws the cgroup; when the broadcast
reports `n` processes signalled it returns `LE_NOT_FOUND` exactly when
`n = 0` and `LE_OK` otherwise. -/
theorem KillAppProcs_signal_thaw_result (app : App) (killType : KillType)
    (env : CgroupEnv) (n : Nat) (hSend : env.sendSigCount = some n) :
    (KillAppProcs app killType env).signalSent =
      (if killType = KillType.soft then Signal.sigTerm else Signal.sigKill) ∧
    (KillAppProcs app killType env).thawCalled = true ∧
    ((KillAppProcs app killType env).result = LeResult.notFound ↔ n = 0) ∧
    ((KillAppProcs app killType env).result = LeResult.ok ↔ n ≠ 0) := by
  by_cases h : n = 0 <;> simp [KillAppProcs, hSend, h]

/-- Witness for C4 at a concrete input (hard kill, two processes
signalled). -/
theorem KillAppProcs_signal_thaw_result_witness :
    (KillAppProcs wApp2 KillType.hard wEnv1).signalSent =
      (if KillType.hard = KillType.soft then Signal.sigTerm
       else Signal.sigKill) ∧
    (KillAppProcs wApp2 KillType.hard wEnv1).thawCalled = true ∧
    ((KillAppProcs wApp2 KillType.hard wEnv1).result = LeResult.ok ↔
      (2 : Nat) ≠ 0) := by
  have h := KillAppProcs_signal_thaw_result wApp2 KillType.hard wEnv1 2 rfl
  exact ⟨h.1, h.2.1, h.2.2.2⟩

/-- Claim C10: with capacity at least `numSupplementGids` the call copies
all stored gids, stores the full count back and returns `LE_OK`; with a
smaller capacity it copies only the first capacity-many gids, still
stores the full count (which then exceeds the buffer capacity) and
returns `LE_OVERFLOW`. -/
theorem app_GetSupplementaryGroups_spec (app : App) (cap : Nat) :
    (app.supplementGids.length ≤ cap →
      (app_GetSupplementaryGroups app cap).groupsOut = app.supplementGids ∧
      (app_GetSupplementaryGroups app cap).numGroupsOut =
        app.supplementGids.length ∧
      (app_GetSupplementaryGroups app cap).result = LeResult.ok) ∧
    (cap < app.supplementGids.length →
      (app_GetSupplementaryGroups app cap).groupsOut =
        app.supplementGids.take cap ∧
      (app_GetSupplementaryGroups app cap).numGroupsOut =
        app.supplementGids.length ∧
      cap < (app_GetSupplementaryGroups app cap).numGroupsOut ∧
      (app_GetSupplementaryGroups app cap).result = LeResult.overflow) := by
  constructor
  · intro h
    simp [app_GetSupplementaryGroups, h]
  · intro h
    have h2 : ¬ app.supplementGids.length ≤ cap := Nat.not_le.mpr h
    simp [app_GetSupplementaryGroups, h2, h]

/-- Concrete app with three supplementary gids. -/
def wApp10 : App := { blankApp with supplementGids := [7, 8, 9] }

/-- Witness for C10 at a concrete input (capacity 1 below the stored
count 3). -/
theorem app_GetSupplementaryGroups_spec_witness :
    (app_GetSupplementaryGroups wApp10 1).groupsOut =
      wApp10.supplementGids.take 1 ∧
    (app_GetSupplementaryGroups wApp10 1).numGroupsOut =
      wApp10.supplementGids.length ∧
    1 < (app_GetSupplementaryGroups wApp10 1).numGroupsOut ∧
    (app_GetSupplementaryGroups wApp10 1).result = LeResult.overflow := by
  exact (app_GetSupplementaryGroups_spec wApp10 1).2 (by decide)

/-- When every `proc_Start` from index `i` on succeeds, the starting loop
attempts exactly the indices `i, i+1, …` in order and returns `LE_OK`
without stopping the app. -/
theorem startProcsFrom_all_ok (env : StartEnv) (app : App) :
    ∀ (l : List ProcContainer) (i : Nat),
      (∀ j, j < l.length → env.procStartOk (i + j) = true) →
      startProcsFrom env app i l =
        { app := app, startAttempts := List.range' i l.length,
          stopCalled := false, result := LeResult.ok } := by
  intro l
  induction l with
  | nil => intro i _; simp [startProcsFrom, List.range']
  | cons p rest ih =>
      intro i h
      have h0 : env.procStartOk i = true := by
        have := h 0 (Nat.succ_pos _)
        simpa using this
      have hrest : ∀ j, j < rest.length → env.procStartOk (i + 1 + j) = true := by
        intro j hj
        have := h (j + 1) (by simpa using Nat.succ_lt_succ hj)
        simpa [Nat.add_comm, Nat.add_left_comm, Nat.add_assoc] using this
      simp [startProcsFrom, h0, ih (i + 1) hrest, List.range']

/-- When the process at relative position `k` is the first to fail, the
starting loop attempts exactly the indices `i, …, i+k`, issues a normal
`app_Stop` and returns `LE_FAULT`. -/
theorem startProcsFrom_first_fail (env : StartEnv) (app : App) :
    ∀ (l : List ProcContainer) (i k : Nat),
      k < l.length →
      (∀ j, j < k → env.procStartOk (i + j) = true) →
      env.procStartOk (i + k) = false →
      startProcsFrom env app i l =
        { app := app_Stop app env.stopEnv,
          startAttempts := List.range' i (k + 1),
          stopCalled := true, result := LeResult.fault } := by
  intro l
  induction l with
  | nil => intro i k hk; exact absurd hk (Nat.not_lt_zero k)
  | cons p rest ih =>
      intro i k hk hok hfail
      cases k with
      | zero =>
          have h0 : env.procStartOk i = false := by simpa using hfail
          simp [startProcsFrom, h0, List.range']
      | succ k =>
          have h0 : env.procStartOk i = true := by
            have := hok 0 (Nat.succ_pos _)
            simpa using this
          have hk' : k < rest.length := by
            simpa using Nat.lt_of_succ_lt_succ hk
          have hok' : ∀ j, j < k → env.procStartOk (i + 1 + j) = true := by
            intro j hj
            have := hok (j + 1) (Nat.succ_lt_succ hj)
            simpa [Nat.add_comm, Nat.add_left_comm, Nat.add_assoc] using this
          have hfail' : env.procStartOk (i + 1 + k) = false := by
            simpa [Nat.add_comm, Nat.add_left_comm, Nat.add_assoc] using hfail
          simp [startProcsFrom, h0, ih (i + 1) k hk' hok' hfail', List.range']

/-- Claim C3: `start()` on a RUNNING app fails without starting any
process and without touching the app; on a STOPPED app (with the
sandboxed `/tmp` steps succeeding) it starts the configured processes in
declaration order — if the `k`-th is the first to fail, exactly
processes `0..k` were attempted, a normal `stop()` was issued and the
call fails; if all starts succeed the call returns `LE_OK`. -/
theorem app_Start_order_and_rollback (app : App) (env : StartEnv) :
    (app.state = AppState.running →
      (app_Start app env).result = LeResult.fault ∧
      (app_Start app env).startAttempts = [] ∧
      (app_Start app env).app = app) ∧
    (app.state = AppState.stopped →
      (app.sandboxed = true → env.tmpFsOk = true ∧ env.tmpLinksOk = true) →
      (∀ k, k < app.procs.length →
        (∀ j, j < k → env.procStartOk j = true) →
        env.procStartOk k = false →
        (app_Start app env).startAttempts = List.range (k + 1) ∧
        (app_Start app env).stopCalled = true ∧
        (app_Start app env).result = LeResult.fault) ∧
      ((∀ j, j < app.procs.length → env.procStartOk j = true) →
        (app_Start app env).startAttempts = List.range app.procs.length ∧
        (app_Start app env).stopCalled = false ∧
        (app_Start app env).result = LeResult.ok)) := by
  constructor
  · intro h
    simp [app_Start, h]
  · intro hStopped hTmp
    have hNotRun : ¬ app.state = AppState.running := by
      rw [hStopped]; exact fun h => AppState.noConfusion h
    have hLoop : app_Start app env =
        startProcsFrom env { app with state := AppState.running } 0 app.procs := by
      rcases hs : app.sandboxed with _ | _
      · simp [app_Start, hNotRun, hs]
      · rcases hTmp hs with ⟨h1, h2⟩
        simp [app_Start, hNotRun, hs, h1, h2]
    constructor
    · intro k hk hok hfail
      have := startProcsFrom_first_fail env
        { app with state := AppState.running } app.procs 0 k
        (by simpa using hk) (by simpa using hok) (by simpa using hfail)
      rw [hLoop, this]
      refine ⟨?_, rfl, rfl⟩
      simp [List.range_eq_range']
    · intro hall
      have := startProcsFrom_all_ok env
        { app with state := AppState.running } app.procs 0
        (by simpa using hall)
      rw [hLoop, this]
      refine ⟨?_, rfl, rfl⟩
      simp [List.range_eq_range']

/-- Concrete STOPPED sandboxed app with three configured processes. -/
def wApp3 : App :=
  { blankApp with sandboxed := true,
                  procs := [{ pid := 3, procState := ProcState.stopped,
                              stopHandler := false, stopping := false,
                              externStopHandler := false },
                            { pid := 4, procState := ProcState.stopped,
                              stopHandler := false, stopping := false,
                              externStopHandler := false },
                            { pid := 5, procState := ProcState.stopped,
                              stopHandler := false, stopping := false,
                              externStopHandler := false }] }

/-- Start environment whose executor fails the second `proc_Start`. -/
def wEnv3 : StartEnv :=
  { tmpFsOk := true, tmpLinksOk := true,
    procStartOk := fun j => j == 0,
    stopEnv := { freezeOk := true, sendSigCount := some 1, thawOk := true } }

/-- Witness for C3 at a concrete input (second process fails). -/
theorem app_Start_order_and_rollback_witness :
    (app_Start wApp3 wEnv3).startAttempts = List.range 2 ∧
    (app_Start wApp3 wEnv3).stopCalled = true ∧
    (app_Start wApp3 wEnv3).result = LeResult.fault := by
  exact ((app_Start_order_and_rollback wApp3 wEnv3).2 rfl
    (fun _ => ⟨rfl, rfl⟩)).1 1 (by decide) (by decide) (by decide)

/-- Scanning a list updated at `pid` by a pid-preserving mutation finds
the mutated container. -/
theorem FindProcContainerInList_update (pid : Nat)
    (f : ProcContainer → ProcContainer) (hf : ∀ p, (f p).pid = p.pid)
    (l : List ProcContainer) :
    FindProcContainerInList (updateProcInList pid f l) pid =
      (FindProcContainerInList l pid).map f := by
  induction l with
  | nil => simp [updateProcInList, FindProcContainerInList]
  | cons p rest ih =>
      by_cases h : p.pid = pid
      · simp [updateProcInList, FindProcContainerInList, h, hf]
      · simp [updateProcInList, FindProcContainerInList, h, ih]

/-- `FindProcContainer` after `updateProc` with a pid-preserving mutation
returns the mutated container. -/
theorem FindProcContainer_updateProc (app : App) (pid : Nat)
    (f : ProcContainer → ProcContainer) (hf : ∀ p, (f p).pid = p.pid) :
    FindProcContainer (updateProc app pid f) pid =
      (FindProcContainer app pid).map f := by
  unfold updateProc
  cases h : FindProcContainerInList app.procs pid with
  | none =>
      simp [FindProcContainer, h, FindProcContainerInList_update pid f hf]
  | some p =>
      simp [FindProcContainer, h, FindProcContainerInList_update pid f hf]

/-- Claim C5 (amended): the watchdog timeout handler returns
`LE_NOT_FOUND` when the pid matches no container; when the resolved
action (after the app-level fallback) is NOT_FOUND it applies the default
restart policy — install `proc_Start` as the container's stop handler,
stop the process, report HANDLED; when the resolved action is ERROR it
only logs and reports HANDLED, neither installing a stop handler nor
stopping the process. -/
theorem app_WatchdogTimeoutHandler_default_policy (app : App) (pid : Nat)
    (env : WdogEnv) :
    (FindProcContainer app pid = Option.none →
      (app_WatchdogTimeoutHandler app pid env).result = LeResult.notFound) ∧
    (FindProcContainer app pid ≠ Option.none →
      resolvedWdogAction env = WdogAction.notFound →
      (app_WatchdogTimeoutHandler app pid env).result = LeResult.ok ∧
      (app_WatchdogTimeoutHandler app pid env).actionOut =
        some WdogAction.handled ∧
      (app_WatchdogTimeoutHandler app pid env).stoppedProc = true ∧
      ((FindProcContainer (app_WatchdogTimeoutHandler app pid env).app
          pid).map (fun p => p.stopHandler)) = some true) ∧
    (FindProcContainer app pid ≠ Option.none →
      resolvedWdogAction env = WdogAction.error →
      (app_WatchdogTimeoutHandler app pid env).result = LeResult.ok ∧
      (app_WatchdogTimeoutHandler app pid env).actionOut =
        some WdogAction.handled ∧
      (app_WatchdogTimeoutHandler app pid env).stoppedProc = false ∧
      (app_WatchdogTimeoutHandler app pid env).app = app) := by
  refine ⟨?_, ?_, ?_⟩
  · intro h
    simp [app_WatchdogTimeoutHandler, h]
  · intro h hres
    rcases hf : FindProcContainer app pid with _ | p
    · exact absurd hf h
    · have hupd := FindProcContainer_updateProc app pid
        (fun p => { p with stopHandler := true, stopping := true })
        (fun _ => rfl)
      simp [app_WatchdogTimeoutHandler, hf, hres, hupd]
  · intro h hres
    rcases hf : FindProcContainer app pid with _ | p
    · exact absurd hf h
    · simp [app_WatchdogTimeoutHandler, hf, hres]

/-- Concrete RUNNING app with one configured process of pid 5 and no
stop handler installed. -/
def cApp5 : App :=
  { blankApp with state := AppState.running,
                  procs := [{ pid := 5, procState := ProcState.running,
                              stopHandler := false, stopping := false,
                              externStopHandler := false }] }

/-- Watchdog environment resolving to ERROR: no process-level action and
the app-level config read fails (app.c:2826-2831 then sets
`WATCHDOG_ACTION_ERROR`). -/
def cEnv5 : WdogEnv :=
  { procAction := WdogAction.notFound, appActionRead := Option.none }

/-- Claim C5 counterexample: with the resolved watchdog action ERROR the
handler reports HANDLED but neither sets the container's stop handler nor
stops the process — the app object is returned untouched — refuting the
claim that NOT_FOUND and ERROR both trigger the default restart
policy. -/
theorem app_WatchdogTimeoutHandler_error_cex :
    FindProcContainer cApp5 5 ≠ Option.none ∧
    resolvedWdogAction cEnv5 = WdogAction.error ∧
    (app_WatchdogTimeoutHandler cApp5 5 cEnv5).stoppedProc = false ∧
    (app_WatchdogTimeoutHandler cApp5 5 cEnv5).app = cApp5 ∧
    (app_WatchdogTimeoutHandler cApp5 5 cEnv5).actionOut =
      some WdogAction.handled := by
  refine ⟨by decide, by decide, by decide, by decide, by decide⟩

/-- Watchdog environment resolving to NOT_FOUND: no action configured at
either level. -/
def wEnv5 : WdogEnv :=
  { procAction := WdogAction.notFound, appActionRead := some [] }

/-- Witness for C5 at a concrete input (unconfigured action: default
restart policy). -/
theorem app_WatchdogTimeoutHandler_default_policy_witness :
    (app_WatchdogTimeoutHandler cApp5 5 wEnv5).result = LeResult.ok ∧
    (app_WatchdogTimeoutHandler cApp5 5 wEnv5).actionOut =
      some WdogAction.handled ∧
    (app_WatchdogTimeoutHandler cApp5 5 wEnv5).stoppedProc = true ∧
    ((FindProcContainer (app_WatchdogTimeoutHandler cApp5 5 wEnv5).app
        5).map (fun p => p.stopHandler)) = some true := by
  exact (app_WatchdogTimeoutHandler_default_policy cApp5 5 wEnv5).2.1
    (by decide) (by decide)

/-- Concrete bindings data: the `bindings` node has no children; on the
cancelled iterator the loop's unspecified read yields the server name
`srv`. -/
def cBindEnv6 : BindingsEnv :=
  { children := [],
    cancelledReads := [some ('s' :: 'r' :: 'v' :: [])] }

/-- Claim C6 (code bug): with no binding children the function cancels
the read transaction but does NOT return — the do/while loop still runs
on the cancelled iterator, and with an unspecified read yielding a
non-empty name it even sets MAC rules; the claim's safe behavior (return
with no rules set) is what the spec prescribes. -/
theorem SetSmackRulesForBindings_empty_children_bug :
    (SetSmackRulesForBindings ('L' :: []) cBindEnv6).usedCancelledIter =
      true ∧
    (SetSmackRulesForBindings ('L' :: []) cBindEnv6).rules ≠ [] := by
  refine ⟨rfl, by decide⟩

/-- One-step equation of the read loop for a single remaining child. -/
theorem readSupplementGids_one (maxGroups maxUserName : Nat)
    (env : GroupsEnv) (i : Nat) (n : List Char) :
    readSupplementGids maxGroups maxUserName env i (n :: []) =
      (if maxUserName ≤ n.length then Option.none
       else match env.createGroup n with
            | Option.none => Option.none
            | some gid => some [gid]) := rfl

/-- One-step equation of the read loop when more children follow. -/
theorem readSupplementGids_cons2 (maxGroups maxUserName : Nat)
    (env : GroupsEnv) (i : Nat) (n m : List Char)
    (rest2 : List (List Char)) :
    readSupplementGids maxGroups maxUserName env i (n :: m :: rest2) =
      (if maxUserName ≤ n.length then Option.none
       else match env.createGroup n with
            | Option.none => Option.none
            | some gid =>
                if maxGroups - 1 ≤ i then Option.none
                else
                  match readSupplementGids maxGroups maxUserName env (i + 1)
                      (m :: rest2) with
                  | Option.none => Option.none
                  | some gids => some (gid :: gids)) := rfl

/-- A successful run of the supplementary-group read loop returns one gid
per config child. -/
theorem readSupplementGids_length (maxGroups maxUserName : Nat)
    (env : GroupsEnv) :
    ∀ (l : List (List Char)) (i : Nat) (gids : List Nat),
      readSupplementGids maxGroups maxUserName env i l = some gids →
      gids.length = l.length := by
  intro l
  induction l with
  | nil => intro i gids h; exact absurd h (by simp [readSupplementGids])
  | cons n rest ih =>
      intro i gids h
      by_cases hn : maxUserName ≤ n.length
      · cases rest with
        | nil => rw [readSupplementGids_one, if_pos hn] at h; exact absurd h (by simp)
        | cons m rest2 =>
            rw [readSupplementGids_cons2, if_pos hn] at h
            exact absurd h (by simp)
      · cases hcg : env.createGroup n with
        | none =>
            cases rest with
            | nil =>
                rw [readSupplementGids_one, if_neg hn] at h
                simp only [hcg] at h
                exact absurd h (by simp)
            | cons m rest2 =>
                rw [readSupplementGids_cons2, if_neg hn] at h
                simp only [hcg] at h
                exact absurd h (by simp)
        | some gid =>
            cases rest with
            | nil =>
                rw [readSupplementGids_one, if_neg hn] at h
                simp only [hcg, Option.some.injEq] at h
                simp [← h]
            | cons m rest2 =>
                rw [readSupplementGids_cons2, if_neg hn] at h
                simp only [hcg] at h
                by_cases hi : maxGroups - 1 ≤ i
                · rw [if_pos hi] at h; exact absurd h (by simp)
                · rw [if_neg hi] at h
                  cases hrec : readSupplementGids maxGroups maxUserName env
                      (i + 1) (m :: rest2) with
                  | none => rw [hrec] at h; exact absurd h (by simp)
                  | some gids2 =>
                      rw [hrec] at h
                      have hlen := ih (i + 1) gids2 hrec
                      simp only [Option.some.injEq] at h
                      simp [← h, hlen]

/-- With more children than the bounded maximum (and every name and
group creation succeeding), the read loop fails. -/
theorem readSupplementGids_too_many (maxGroups maxUserName : Nat)
    (env : GroupsEnv) :
    ∀ (l : List (List Char)) (i : Nat),
      i < maxGroups → maxGroups < i + l.length →
      (∀ n, n ∈ l → n.length < maxUserName) →
      (∀ n, env.createGroup n ≠ Option.none) →
      readSupplementGids maxGroups maxUserName env i l = Option.none := by
  intro l
  induction l with
  | nil => intro i hi hlen _ _; simp at hlen; omega
  | cons n rest ih =>
      intro i hi hlen hnames hcg
      have hn : ¬ maxUserName ≤ n.length := by
        have := hnames n (List.mem_cons_self n rest)
        omega
      cases hcgn : env.createGroup n with
      | none => exact absurd hcgn (hcg n)
      | some gid =>
          cases rest with
          | nil => simp at hlen; omega
          | cons m rest2 =>
              rw [readSupplementGids_cons2, if_neg hn]
              simp only [hcgn]
              by_cases hfull : maxGroups - 1 ≤ i
              · rw [if_pos hfull]
              · rw [if_neg hfull]
                have hi' : i + 1 < maxGroups := by omega
                have hlen' : maxGroups < (i + 1) + (m :: rest2).length := by
                  simp at hlen ⊢; omega
                have hrec := ih (i + 1) hi' hlen'
                  (fun x hx => hnames x (List.mem_cons_of_mem n hx)) hcg
                rw [hrec]

/-- Claim C7: identity setup gives every unsandboxed app uid 0, gid 0
and leaves the (freshly empty) supplementary-group list untouched — the
groups config is never read for it; for a sandboxed app, configuring more
groups than the bounded maximum fails the identity step and with it the
whole app creation; and on success the stored count equals the number of
groups read from the config. -/
theorem CreateUserAndGroups_identity_spec (maxGroups maxUserName : Nat)
    (env : CreateEnv) (cfgPath : List Char) (app : App) :
    (app.sandboxed = false →
      CreateUserAndGroups maxGroups maxUserName env.userEnv app =
        some { app with uid := 0, gid := 0 }) ∧
    (0 < maxGroups → env.cfgPathFits = true → env.sandboxed = true →
     env.userEnv.userNameFits = true →
     env.userEnv.getIDs ≠ Option.none →
     maxGroups < env.userEnv.groupsEnv.groups.length →
     (∀ n, n ∈ env.userEnv.groupsEnv.groups → n.length < maxUserName) →
     (∀ n, env.userEnv.groupsEnv.createGroup n ≠ Option.none) →
     (app.sandboxed = true →
       CreateUserAndGroups maxGroups maxUserName env.userEnv app =
         Option.none) ∧
     app_Create maxGroups maxUserName env cfgPath = Option.none) ∧
    (app.sandboxed = true → app.supplementGids = [] →
     ∀ app2,
       CreateUserAndGroups maxGroups maxUserName env.userEnv app = some app2 →
       app2.supplementGids.length = env.userEnv.groupsEnv.groups.length) := by
  refine ⟨?_, ?_, ?_⟩
  · intro h
    simp [CreateUserAndGroups, h]
  · intro hMax hCfg hSand hUser hIDs hOver hNames hCreate
    have hAll : ∀ a : App, a.sandboxed = true →
        CreateUserAndGroups maxGroups maxUserName env.userEnv a =
          Option.none := by
      intro a hSand2
      cases hgi : env.userEnv.getIDs with
      | none => exact absurd hgi hIDs
      | some ug =>
          rcases ug with ⟨u, g⟩
          cases hgs : env.userEnv.groupsEnv.groups with
          | nil => rw [hgs] at hOver; simp at hOver
          | cons n rest =>
              have hread := readSupplementGids_too_many maxGroups maxUserName
                env.userEnv.groupsEnv (n :: rest) 0 hMax
                (by rw [hgs] at hOver; simpa using hOver)
                (by rw [hgs] at hNames; exact hNames) hCreate
              simp [CreateUserAndGroups, hSand2, hUser, hgi,
                    CreateSupplementaryGroups, hgs, hread]
    refine ⟨hAll app, ?_⟩
    have h0 := hAll
      { name := pathBasename cfgPath, cfgPathRoot := cfgPath,
        sandboxed := env.sandboxed, uid := 0, gid := 0,
        supplementGids := [], state := AppState.stopped, procs := [],
        auxProcs := [], killTimerExists := false, killTimerArmed := false }
      hSand
    simp [app_Create, hCfg, h0]
  · intro hSand hEmpty app2 h
    rw [CreateUserAndGroups, if_pos (by rw [hSand])] at h
    cases hUser : env.userEnv.userNameFits with
    | false => rw [hUser] at h; simp at h
    | true =>
        rw [hUser] at h; simp only [Bool.true_eq_false, if_false] at h
        cases hgi : env.userEnv.getIDs with
        | none => rw [hgi] at h; simp at h
        | some ug =>
            rcases ug with ⟨u, g⟩
            rw [hgi] at h
            cases hgs : env.userEnv.groupsEnv.groups with
            | nil =>
                simp only [CreateSupplementaryGroups, hgs] at h
                simp at h
                simp [← h, hEmpty, hgs]
            | cons n rest =>
                simp only [CreateSupplementaryGroups, hgs] at h
                cases hread : readSupplementGids maxGroups maxUserName
                    env.userEnv.groupsEnv 0 (n :: rest) with
                | none => rw [hread] at h; simp at h
                | some gids =>
                    rw [hread] at h
                    simp at h
                    have := readSupplementGids_length maxGroups maxUserName
                      env.userEnv.groupsEnv (n :: rest) 0 gids hread
                    simp [← h, this, hgs]

/-- Concrete identity data for the C7 witness: an unsandboxed app and a
creation environment configuring `maxGroups + 1 = 3` groups. -/
def wGroupsEnv7 : GroupsEnv :=
  { groups := [('g' :: '1' :: []), ('g' :: '2' :: []), ('g' :: '3' :: [])],
    createGroup := fun _ => some 5 }

/-- Creation environment for the C7 witness. -/
def wCreateEnv7 : CreateEnv :=
  { cfgPathFits := true, sandboxed := true,
    userEnv := { userNameFits := true, getIDs := some (10, 20),
                 groupsEnv := wGroupsEnv7 },
    installPathFits := true, workingPathFits := true, procCreateOk := [],
    resLimOk := true, smackOk := true, areaOk := true }

/-- Witness for C7 at concrete inputs: an unsandboxed app gets uid 0 and
gid 0 with its empty group list untouched, and creating a sandboxed app
with 3 configured groups against a maximum of 2 fails. -/
theorem CreateUserAndGroups_identity_spec_witness :
    CreateUserAndGroups 2 32 wCreateEnv7.userEnv blankApp =
      some { blankApp with uid := 0, gid := 0 } ∧
    app_Create 2 32 wCreateEnv7 ('a' :: []) = Option.none := by
  have h := CreateUserAndGroups_identity_spec 2 32 wCreateEnv7
    ('a' :: []) blankApp
  refine ⟨h.1 rfl, ?_⟩
  exact (h.2.1 (by decide) rfl rfl rfl (fun hx => Option.noConfusion hx)
    (by decide) (by decide) (fun n hx => Option.noConfusion hx)).2

/-- Claim C8: the absolute link destination computed by the code equals
the claim's description — the working directory joined with the
destination and the source's basename appended when the destination ends
in a separator, the working directory joined with the destination
verbatim otherwise (`destPtr[strlen(destPtr)-1]` makes sense only for a
non-empty destination). -/
theorem GetAbsDestPath_matches_spec (dest src workingDir : List Char)
    (_hne : dest ≠ []) :
    GetAbsDestPath dest src workingDir = specAbsDestPath dest src workingDir := by
  unfold GetAbsDestPath specAbsDestPath
  rw [List.head?_reverse]

/-- Witness for C8 at concrete inputs (destination `bin/` ending in a
separator). -/
theorem GetAbsDestPath_matches_spec_witness :
    ('b' :: 'i' :: 'n' :: '/' :: []) ≠ ([] : List Char) ∧
    GetAbsDestPath ('b' :: 'i' :: 'n' :: '/' :: [])
        ('/' :: 'u' :: '/' :: 'f' :: []) ('/' :: 'w' :: []) =
      specAbsDestPath ('b' :: 'i' :: 'n' :: '/' :: [])
        ('/' :: 'u' :: '/' :: 'f' :: []) ('/' :: 'w' :: []) := by
  exact ⟨by decide, GetAbsDestPath_matches_spec _ _ _ (by decide)⟩

/-- Looking up a reference in the map filtered of that reference fails. -/
theorem le_ref_Lookup_filter_self (m : List (Nat × ThreadObj)) (ref : Nat) :
    le_ref_Lookup (m.filter (fun rt => rt.fst ≠ ref)) ref = Option.none := by
  induction m with
  | nil => rfl
  | cons rt rest ih =>
      obtain ⟨r, o⟩ := rt
      rw [List.filter_cons]
      by_cases h : r = ref
      · rw [if_neg (by simp [h])]
        exact ih
      · rw [if_pos (by simp [h])]
        simp only [le_ref_Lookup, if_neg h]
        exact ih

/-- Claim C9: thread join fails `LE_NOT_FOUND` on an unknown reference,
`LE_NOT_POSSIBLE` on a non-joinable target, `LE_DEADLOCK` on self-join
(POSIX reports `EDEADLK` there), and on success removes the object from
the process-wide list, invalidates its safe reference and frees the
object. -/
theorem le_thread_Join_spec (st : ThreadState) (caller ref : Nat)
    (pj : Nat → Nat → PthreadJoinResult) :
    (le_ref_Lookup st.refMap ref = Option.none →
      (le_thread_Join st caller ref pj).result = LeResult.notFound ∧
      (le_thread_Join st caller ref pj).st = st) ∧
    (∀ o, le_ref_Lookup st.refMap ref = some o → o.isJoinable = false →
      (le_thread_Join st caller ref pj).result = LeResult.notPossible ∧
      (le_thread_Join st caller ref pj).st = st) ∧
    (∀ o, le_ref_Lookup st.refMap ref = some o → o.isJoinable = true →
      o.tid = caller → (∀ t, pj t t = PthreadJoinResult.edeadlk) →
      (le_thread_Join st caller ref pj).result = LeResult.deadlock) ∧
    (∀ o, le_ref_Lookup st.refMap ref = some o → o.isJoinable = true →
      pj caller o.tid = PthreadJoinResult.success →
      (le_thread_Join st caller ref pj).result = LeResult.ok ∧
      le_ref_Lookup (le_thread_Join st caller ref pj).st.refMap o.safeRef =
        Option.none ∧
      o.tid ∉ (le_thread_Join st caller ref pj).st.objList ∧
      (le_thread_Join st caller ref pj).freedTid = some o.tid) := by
  refine ⟨?_, ?_, ?_, ?_⟩
  · intro h
    simp [le_thread_Join, h]
  · intro o ho hj
    simp [le_thread_Join, ho, hj]
  · intro o ho hj hself hpj
    have : pj caller o.tid = PthreadJoinResult.edeadlk := by
      rw [hself]; exact hpj caller
    simp [le_thread_Join, ho, hj, this]
  · intro o ho hj hok
    have hres : le_thread_Join st caller ref pj =
        { result := LeResult.ok,
          st := { refMap := st.refMap.filter (fun rt => rt.fst ≠ o.safeRef),
                  objList := st.objList.filter (fun t => t ≠ o.tid) },
          freedTid := some o.tid } := by
      simp [le_thread_Join, ho, hj, hok]
    rw [hres]
    exact ⟨rfl, le_ref_Lookup_filter_self st.refMap o.safeRef,
           by simp [List.mem_filter], rfl⟩

/-- Concrete joinable thread object for the C9 witness. -/
def wObj9 : ThreadObj := { tid := 2, safeRef := 11, isJoinable := true }

/-- Concrete thread-runtime state for the C9 witness. -/
def wSt9 : ThreadState := { refMap := [(11, wObj9)], objList := [2, 3] }

/-- Host join outcome for the C9 witness: self-join deadlocks, everything
else succeeds. -/
def wPj9 : Nat → Nat → PthreadJoinResult :=
  fun a b =>
    if a = b then PthreadJoinResult.edeadlk else PthreadJoinResult.success

/-- Witness for C9 at concrete inputs (successful join by thread 1 on
thread 2). -/
theorem le_thread_Join_spec_witness :
    (le_thread_Join wSt9 1 11 wPj9).result = LeResult.ok ∧
    le_ref_Lookup (le_thread_Join wSt9 1 11 wPj9).st.refMap wObj9.safeRef =
      Option.none ∧
    wObj9.tid ∉ (le_thread_Join wSt9 1 11 wPj9).st.objList ∧
    (le_thread_Join wSt9 1 11 wPj9).freedTid = some wObj9.tid := by
  exact (le_thread_Join_spec wSt9 1 11 wPj9).2.2.2 wObj9 rfl rfl (by decide)

end Legato
